import Mathlib

/-!
Verification development for the AutoPrep preprocessing pipeline
(`src/preprocessing/stats.py`, `llm_advisor.py`, `transformers.py`,
`pipeline.py`).

The Python code is shallowly embedded: a pandas `DataFrame` becomes a
`Table` (a row index plus named columns of `Val` cells), pandas/scikit
operations become explicit Lean functions on rational numbers, and the
exception behaviour of `fit_transform` is made explicit with `Option`.

Two representation conventions keep everything inside `ℚ`:
* skewness values (whose definition involves `m2^(3/2)`, irrational in
  general) are represented by the signed square `sign(skew) * skew ^ 2`,
  which supports exactly the comparisons the code performs
  (`abs(skew) < c` becomes `|signed square| < c ^ 2`);
* a standard-scaled value `(x - mu) / sqrt m2` is kept symbolic in the
  constructor `Val.sstd x mu m2`; within one scaled column all cells share
  `mu` and `m2`, so structural equality of cells coincides with equality
  of the real numbers they denote, which is all any later step inspects.
-/

namespace AutoPrep

/-- Cell values of a table: exact rationals for numeric data, strings for
categorical data, `nan` for a missing value, `date` for a parsed timestamp
(proleptic Gregorian, year ≥ 1, with an hour component, 0 when absent),
`sstd x mu m2` for the value `(x - mu) / sqrt m2` produced by
`StandardScaler`, and `tenc gm cmean cnt` for the value
`gm * (1 - w) + cmean * w` with logistic weight `w = 1 / (1 + exp (10 - cnt))`
produced by `TargetMeanEncoder` (transcendental, so kept symbolic). -/
inductive Val
  | num (q : ℚ)
  | str (s : String)
  | nan
  | date (y m d hour : ℕ)
  | sstd (x mu m2 : ℚ)
  | tenc (gm cmean : ℚ) (cnt : ℕ)
deriving DecidableEq, Repr

/-- Storage dtype of a column, as pandas reports it: `tnum` for
integer/unsigned/float kinds, `tdate` for datetime64, `tobj` for
object/category storage. -/
inductive DType
  | tnum
  | tdate
  | tobj
deriving DecidableEq, Repr

/-- One named column: its pandas dtype and its cells. -/
structure Column where
  dtype : DType
  vals : List Val
deriving DecidableEq, Repr

/-- A pandas DataFrame: a row index plus ordered named columns. Column
names are assumed distinct, as they are for every table read by the app. -/
structure Table where
  idx : List ℤ
  cols : List (String × Column)
deriving DecidableEq, Repr

/-- Missing-value test (`pd.isna`). -/
def Val.isNan : Val → Bool
  | .nan => true
  | _ => false

/-- Coercion `pd.to_numeric(_, errors='coerce')` of one cell.  Integer
literals in strings coerce; other strings and non-numeric cells become
missing.  A `sstd` cell denotes an irrational float and is left opaque
(no claim inspects numeric statistics of a standard-scaled column). -/
def toNumQ? : Val → Option ℚ
  | .num q => some q
  | .str s => (s.toInt?).map (fun z => (z : ℚ))
  | _ => none

/-- String rendering of a cell (`astype(str)` / f-string interpolation).
Only consulted for date-parsing samples and one-hot column names; the
exact float formatting of Python is not reproduced. -/
def valShow : Val → String
  | .num q => if q.den = 1 then toString q.num else toString q.num ++ "/" ++ toString q.den
  | .str s => s
  | .nan => "nan"
  | .date y m d _ => toString y ++ "-" ++ toString m ++ "-" ++ toString d
  | .sstd _ _ _ => "float"
  | .tenc _ _ _ => "float"

/-- Insert into a sorted list of rationals (ascending). -/
def insertSortedQ (x : ℚ) : List ℚ → List ℚ
  | [] => [x]
  | y :: ys => if x ≤ y then x :: y :: ys else y :: insertSortedQ x ys

/-- Ascending sort of rationals, as pandas sorts values for quantiles. -/
def sortQ (xs : List ℚ) : List ℚ := xs.foldr insertSortedQ []

/-- Arithmetic mean (`Series.mean`, after dropping missing values). -/
def meanQ (xs : List ℚ) : ℚ := xs.sum / (xs.length : ℚ)

/-- Median with the pandas convention: middle element for odd length,
mean of the two middle elements for even length. -/
def medianQ (xs : List ℚ) : ℚ :=
  let s := sortQ xs
  let n := s.length
  if n = 0 then 0
  else if n % 2 = 1 then s.getD (n / 2) 0
  else (s.getD (n / 2 - 1) 0 + s.getD (n / 2) 0) / 2

/-- Sample variance (`Series.std` squared, ddof = 1).  The standard
deviation itself is irrational in general, so statistics carry its
square. -/
def sampleVarQ (xs : List ℚ) : ℚ :=
  let n := xs.length
  let mu := meanQ xs
  (xs.map (fun x => (x - mu) ^ 2)).sum / ((n : ℚ) - 1)

/-- Minimum of a nonempty list (`Series.min`); 0 on `[]` (unreachable:
callers guard on at least one valid value). -/
def listMinQ : List ℚ → ℚ
  | [] => 0
  | h :: t => t.foldl min h

/-- Maximum of a nonempty list (`Series.max`); 0 on `[]` (unreachable). -/
def listMaxQ : List ℚ → ℚ
  | [] => 0
  | h :: t => t.foldl max h

/-- Count of distinct non-missing values, `Series.nunique(dropna=True)`. -/
def nuniqueDropna (vs : List Val) : ℕ :=
  ((vs.filter (fun v => !v.isNan)).dedup).length

/-- Fraction of missing cells, `Series.isna().mean()`.  On an empty
column pandas yields NaN, whose comparisons are all False; returning 0
gives the same branch outcomes for the nonnegative thresholds used. -/
def missingRate (vs : List Val) : ℚ :=
  if vs.length = 0 then 0
  else ((vs.filter (fun v => v.isNan)).length : ℚ) / (vs.length : ℚ)

/-- A scalar statistic as pandas hands it on: the key may be absent from
the per-column dict, the value may be Python `None`, it may be float NaN,
or an exact rational (possibly encoding a square, documented per use). -/
inductive NumF
  | absent
  | null
  | nan
  | val (q : ℚ)
deriving DecidableEq, Repr

/-- Skewness as `Series.skew` computes it (adjusted Fisher-Pearson
`G1 = m3 / m2^(3/2) * sqrt (n * (n-1)) / (n-2)`), represented by its
signed square `sign(G1) * G1 ^ 2`.  pandas returns NaN below 3
observations and 0 for zero variance. -/
def pandasSkewRep (xs : List ℚ) : NumF :=
  let n := xs.length
  if n < 3 then NumF.nan
  else
    let nq : ℚ := (n : ℚ)
    let mu := xs.sum / nq
    let m2 := (xs.map (fun x => (x - mu) ^ 2)).sum / nq
    let m3 := (xs.map (fun x => (x - mu) ^ 3)).sum / nq
    if m2 = 0 then NumF.val 0
    else NumF.val (nq * (nq - 1) / ((nq - 2) ^ 2) * (m3 * |m3|) / m2 ^ 3)

/-- Skewness as `scipy.stats.skew` computes it with its default bias
(`g1 = m3 / m2^(3/2)`), represented by its signed square; zero variance
gives float NaN (0/0). -/
def scipySkewRep (xs : List ℚ) : NumF :=
  let n := xs.length
  if n = 0 then NumF.nan
  else
    let nq : ℚ := (n : ℚ)
    let mu := xs.sum / nq
    let m2 := (xs.map (fun x => (x - mu) ^ 2)).sum / nq
    let m3 := (xs.map (fun x => (x - mu) ^ 3)).sum / nq
    if m2 = 0 then NumF.nan
    else NumF.val (m3 * |m3| / m2 ^ 3)

/-- Linear-interpolation quantile, the pandas `Series.quantile` default:
position `h = (n - 1) * p` in the ascending sort, interpolating between
the neighbouring elements.  Missing values are dropped by the caller. -/
def quantileQ (xs : List ℚ) (p : ℚ) : ℚ :=
  let s := sortQ xs
  let n := s.length
  if n = 0 then 0
  else
    let h : ℚ := ((n : ℚ) - 1) * p
    let i : ℕ := h.floor.toNat
    let lo := s.getD i 0
    let hi := s.getD (i + 1) lo
    lo + (h - (h.floor : ℚ)) * (hi - lo)

/-- Fitted clipping bounds of `OutlierCapper` (`transformers.py`). -/
structure CapParams where
  low : ℚ
  high : ℚ
deriving DecidableEq, Repr

/-- `OutlierCapper.fit` in `iqr` mode: learn `[Q1 - 1.5 IQR, Q3 + 1.5 IQR]`
from the fit data.  The `zscore` mode is unused by the pipeline (it always
constructs `OutlierCapper(method='iqr')`) and no claim concerns it. -/
def iqrFitQ (xs : List ℚ) : CapParams :=
  let q1 := quantileQ xs (1 / 4)
  let q3 := quantileQ xs (3 / 4)
  let iqr := q3 - q1
  ⟨q1 - 3 / 2 * iqr, q3 + 3 / 2 * iqr⟩

/-- `OutlierCapper.transform` on one value: `Series.clip(low, high)`. -/
def clip1 (p : CapParams) (x : ℚ) : ℚ := max p.low (min x p.high)

/-- `AutoPreprocessor._choose_scaling_method` on already-coerced values:
below 2 observations or on NaN skew pick `standard`, else `minmax` when
`|skew| > 0.5` (signed-square comparison against `0.25`). -/
def chooseScalingCore (xs : List ℚ) : String :=
  if xs.length < 2 then "standard"
  else
    match scipySkewRep xs with
    | NumF.val s => if |s| > 1 / 4 then "minmax" else "standard"
    | _ => "standard"

/-- `AutoPreprocessor._choose_scaling_method`: coerce to numeric, drop
missing, then decide by skewness. -/
def chooseScalingMethod (vs : List Val) : String :=
  chooseScalingCore (vs.filterMap toNumQ?)

/-- The identifier-name pattern of `stats.py`
(`^(id|.*_id|code|.*_code|.*_number|.*_num)$`, case-insensitive). -/
def isIdName (name : String) : Bool :=
  let n := name.toLower
  n = "id" || n = "code" || n.endsWith "_id" || n.endsWith "_code" ||
    n.endsWith "_number" || n.endsWith "_num"

/-- String made only of decimal digits, nonempty. -/
def allDigits (s : String) : Bool := !s.isEmpty && s.all Char.isDigit

/-- Split an ISO-ish timestamp string into its date part and optional
time part (separator `T` or a single space). -/
def splitDateTime (s : String) : String × Option String :=
  match s.splitOn "T" with
  | [d, t] => (d, some t)
  | _ =>
    match s.splitOn " " with
    | [d, t] => (d, some t)
    | _ => (s, none)

/-- Minimal model of `pd.to_datetime` on a string: accepts
`YYYY-MM-DD`, optionally followed by a time whose leading field is the
hour.  Other formats pandas accepts are outside the modelled input
space; strings that are not dates fail here exactly as there. -/
def parseISODate? (s : String) : Option (ℕ × ℕ × ℕ × ℕ) :=
  let (dpart, tpart) := splitDateTime s
  match dpart.splitOn "-" with
  | [ys, ms, ds] =>
    if allDigits ys && allDigits ms && allDigits ds then
      let y := ys.toNat!
      let m := ms.toNat!
      let d := ds.toNat!
      if 1 ≤ y ∧ 1 ≤ m ∧ m ≤ 12 ∧ 1 ≤ d ∧ d ≤ 31 then
        match tpart with
        | none => some (y, m, d, 0)
        | some t =>
          match t.splitOn ":" with
          | hs :: _ =>
            if allDigits hs ∧ hs.toNat! < 24 then some (y, m, d, hs.toNat!) else none
          | _ => none
      else none
    else none
  | _ => none

/-- `infer_types` for a single column (`stats.py`): identifier pattern on
the name, then the 0.9 uniqueness ratio, then the storage dtype; object
storage samples up to 50 non-missing values and calls the column datetime
when more than 0.7 of them parse as dates. -/
def inferType (n : String) (c : Column) : String :=
  if isIdName n then "id"
  else if ((nuniqueDropna c.vals : ℚ) > 9 / 10 * (c.vals.length : ℚ)) then "id"
  else
    match c.dtype with
    | .tnum => "numeric"
    | .tdate => "datetime"
    | .tobj =>
      let sample := ((c.vals.filter (fun v => !v.isNan)).take 50).map valShow
      let dtCount := (sample.filter (fun s => (parseISODate? s).isSome)).length
      if 0 < sample.length ∧ (dtCount : ℚ) / (sample.length : ℚ) > 7 / 10 then "datetime"
      else "categorical"

/-- `infer_types(df)`: the name-to-type mapping, in column order. -/
def inferTypes (t : Table) : List (String × String) :=
  t.cols.map (fun p => (p.1, inferType p.1 p.2))

/-- First-match association lookup, the dict access of the Python code
(column names are distinct in every table the app builds). -/
def alookup {α : Type} (l : List (String × α)) (n : String) : Option α :=
  (l.find? (fun p => p.1 = n)).map Prod.snd

/-- One per-column statistics entry of `column_stats` (`stats.py`).
`std` carries the square of the standard deviation and `skew` the signed
square of the skewness (see the module comment); both support every
comparison the consumers perform. -/
structure StatEntry where
  name : String
  type : String
  missing_rate : ℚ
  cardinality : ℕ
  mean : NumF := NumF.absent
  median : NumF := NumF.absent
  std : NumF := NumF.absent
  skew : NumF := NumF.absent
  min : NumF := NumF.absent
  max : NumF := NumF.absent
deriving DecidableEq, Repr

/-- `column_stats` body for one column: missing rate and cardinality for
every column; the numeric block only when the supplied type is
`numeric`, with `None` for an all-missing column except `skew`, which the
source writes as `0.0` there, and NaN where pandas produces it (`std`
below 2 observations, `skew` below 3). -/
def statEntryFor (ty : String) (n : String) (c : Column) : StatEntry :=
  let miss := missingRate c.vals
  let card := nuniqueDropna c.vals
  if ty = "numeric" then
    let valid := c.vals.filterMap toNumQ?
    { name := n, type := ty, missing_rate := miss, cardinality := card,
      mean := if valid.isEmpty then NumF.null else NumF.val (meanQ valid),
      median := if valid.isEmpty then NumF.null else NumF.val (medianQ valid),
      std := if valid.isEmpty then NumF.null
        else if valid.length < 2 then NumF.nan else NumF.val (sampleVarQ valid),
      skew := if valid.isEmpty then NumF.val 0 else pandasSkewRep valid,
      min := if valid.isEmpty then NumF.null else NumF.val (listMinQ valid),
      max := if valid.isEmpty then NumF.null else NumF.val (listMaxQ valid) }
  else
    { name := n, type := ty, missing_rate := miss, cardinality := card }

/-- `column_stats(df, types)`: one entry per column, type defaulted to
`categorical` when missing from the mapping. -/
def columnStats (t : Table) (types : List (String × String)) : List StatEntry :=
  t.cols.map (fun p => statEntryFor ((alookup types p.1).getD "categorical") p.1 p.2)

/-- `dataset_wide_stats` result record. -/
structure DsStats where
  n_rows : ℕ
  n_cols : ℕ
  missing_overall : ℚ
  type_counts : List (String × ℕ)
deriving DecidableEq, Repr

/-- `dataset_wide_stats(df, types)`: shape, mean of the per-column
missing rates (0 when the table has no cells), and counts per type. -/
def datasetWideStats (t : Table) (types : List (String × String)) : DsStats :=
  { n_rows := t.idx.length,
    n_cols := t.cols.length,
    missing_overall :=
      if t.idx.length * t.cols.length = 0 then 0
      else (t.cols.map (fun p => missingRate p.2.vals)).sum / (t.cols.length : ℚ),
    type_counts :=
      ((types.map Prod.snd).dedup).map
        (fun ty => (ty, (types.filter (fun p => p.2 = ty)).length)) }

/-- A cleaning Decision as the advisor produces it (`llm_advisor.py`):
`encoding`/`scaling` are `None`-able in Python, hence `Option String`. -/
structure Decision where
  imputation : String
  encoding : Option String
  scaling : Option String
  reason : String
deriving DecidableEq, Repr

/-- The Python comparison `abs(skew) < c` on the statistic fetched with
`feature.get("skew", 0.0)`: an absent key reads as `0.0`; NaN compares
False; a value compares through its signed square against `c ^ 2`.
Python `None` never occurs for `skew` (the stats writer emits `0.0`
instead); the branch is kept for totality and yields False. -/
def skewAbsLt (sk : NumF) (c : ℚ) : Bool :=
  match sk with
  | NumF.absent => decide ((0 : ℚ) < c)
  | NumF.null => false
  | NumF.nan => false
  | NumF.val s => decide (|s| < c ^ 2)

/-- `_heuristic_decision` (`llm_advisor.py`): the deterministic fallback.
The numeric branch imputes by the median above a 0.2 missing rate, else
mean below absolute skewness 1.0, and sets the informational `scaling`
field at the same 1.0 threshold; categorical one-hot up to cardinality
20 else frequency; datetime drop above 0.3 missing else leave.  Reason
strings keep the source's French wording with accents transliterated. -/
def heuristicDecision (f : StatEntry) : Decision :=
  if f.type = "numeric" then
    let method :=
      if f.missing_rate > 1 / 5 then "median"
      else if skewAbsLt f.skew 1 then "mean" else "median"
    let reason :=
      if f.missing_rate > 1 / 5 then "Taux de valeurs manquantes eleve; la mediane est robuste."
      else "Skew faible -> moyenne; sinon mediane plus robuste."
    { imputation := method, encoding := none,
      scaling := some (if skewAbsLt f.skew 1 then "standard" else "minmax"),
      reason := reason }
  else if f.type = "categorical" then
    if f.cardinality ≤ 20 then
      { imputation := "most_frequent", encoding := some "onehot", scaling := none,
        reason := "Faible cardinalite -> One-Hot." }
    else
      { imputation := "most_frequent", encoding := some "frequency", scaling := none,
        reason := "Haute cardinalite -> Frequency encoding." }
  else if f.type = "datetime" then
    { imputation := if f.missing_rate > 3 / 10 then "drop" else "leave",
      encoding := some "cyclical", scaling := none,
      reason := "Dates encodees cycliquement si gardees." }
  else
    { imputation := "leave", encoding := none, scaling := none,
      reason := "Type non pris en charge, laisse tel quel." }

/-- A JSON value inside a parsed remote response: strings, `null`,
numbers, or anything else the model produced. -/
inductive JVal
  | jstr (s : String)
  | jnull
  | jnum (q : ℚ)
  | jother
deriving DecidableEq, Repr

/-- Every way one call to the remote service can end, seen from `advise`:
the service is not configured (no key or no URL), the request raised or
returned a bad status or a non-JSON body or timed out (`failure`), or a
response body was obtained whose content either yields no JSON object
(`content none`: unparseable and no `{...}` match, or a non-object JSON
payload) or yields some parsed object, a key-value list. -/
inductive RemoteOutcome
  | notConfigured
  | failure
  | content (parsed : Option (List (String × JVal)))
deriving DecidableEq, Repr

/-- The four-key dict form of a heuristic Decision, as `advise` returns
it (`None` becomes JSON null when serialised). -/
def Decision.toKVs (d : Decision) : List (String × JVal) :=
  [("imputation", JVal.jstr d.imputation),
   ("encoding", (d.encoding.map JVal.jstr).getD JVal.jnull),
   ("scaling", (d.scaling.map JVal.jstr).getD JVal.jnull),
   ("reason", JVal.jstr d.reason)]

/-- Python `dict.setdefault k v`: insert only when the key is absent. -/
def setdefault (kvs : List (String × JVal)) (k : String) (v : JVal) :
    List (String × JVal) :=
  if (alookup kvs k).isSome then kvs else kvs ++ [(k, v)]

/-- `advise` (`llm_advisor.py`): with no configuration or any failure it
returns the heuristic decision; a parsed object is returned after
`setdefault`-ing the four Decision keys (`leave` / null / null / empty
reason); a non-object parse also falls back to the heuristic.  The
`try/except` of the source makes this function total: no outcome
escapes as an exception. -/
def advise (f : StatEntry) (o : RemoteOutcome) : List (String × JVal) :=
  match o with
  | RemoteOutcome.notConfigured => (heuristicDecision f).toKVs
  | RemoteOutcome.failure => (heuristicDecision f).toKVs
  | RemoteOutcome.content none => (heuristicDecision f).toKVs
  | RemoteOutcome.content (some kvs) =>
    setdefault (setdefault (setdefault (setdefault kvs
      "imputation" (JVal.jstr "leave"))
      "encoding" JVal.jnull)
      "scaling" JVal.jnull)
      "reason" (JVal.jstr "")

/-- Total comparison used to order category values: numbers by value,
strings lexicographically, mixed kinds by constructor rank.  Real
categorical columns are homogeneous (mixed kinds make numpy sorting
fail in the source too), so only the homogeneous cases matter. -/
def valLe (a b : Val) : Bool :=
  match a, b with
  | Val.num x, Val.num y => decide (x ≤ y)
  | Val.str x, Val.str y => decide (x ≤ y)
  | Val.num _, _ => true
  | Val.str _, Val.num _ => false
  | Val.str _, _ => true
  | Val.nan, Val.num _ => false
  | Val.nan, Val.str _ => false
  | Val.nan, _ => true
  | _, _ => false

/-- Insertion into a `valLe`-sorted list. -/
def insertSortedV (x : Val) : List Val → List Val
  | [] => [x]
  | y :: ys => if valLe x y then x :: y :: ys else y :: insertSortedV x ys

/-- Ascending sort of values by `valLe` (numpy sorts the observed
categories before one-hot expansion). -/
def sortVals (xs : List Val) : List Val := xs.foldr insertSortedV []

/-- `SimpleImputer(strategy='most_frequent')` statistic over the
non-missing values: the most frequent value, the smallest one under
ties, as scikit-learn documents.  `nan` on an empty list (unreachable:
all-missing columns are dropped as constant before imputation). -/
def mostFrequentVal (vs : List Val) : Val :=
  match sortVals vs.dedup with
  | [] => Val.nan
  | c :: cs => cs.foldl (fun best x => if vs.count x > vs.count best then x else best) c

/-- Most-frequent imputation of a categorical column. -/
def imputeMostFrequent (vs : List Val) : List Val :=
  let fv := mostFrequentVal (vs.filter (fun v => !v.isNan))
  vs.map (fun v => if v.isNan then fv else v)

/-- `FrequencyEncoder` fitted and applied to the same data
(`transformers.py`): each value maps to its relative frequency computed
with `value_counts(dropna=False)`. -/
def freqEncode (vs : List Val) : List Val :=
  vs.map (fun v => Val.num ((vs.count v : ℚ) / (vs.length : ℚ)))

/-- `TargetMeanEncoder(smoothing=10)` fitted and applied to the same
data: each category maps to the global target mean shrunk toward the
category mean by the logistic weight of its count.  The weight is
transcendental, so the encoded value is kept symbolic in `Val.tenc`
(global mean, category mean over the valid targets, category count);
groups whose targets are all missing are outside the modelled inputs.
The pipeline's heuristic decisions never select target encoding, so the
branch is dead in every modelled run. -/
def targetEncode (xs : List Val) (ys : List (Option ℚ)) : List Val :=
  let validY := ys.filterMap id
  let gm := meanQ validY
  xs.map (fun x =>
    let pairs := (xs.zip ys).filter (fun p => p.1 = x)
    let yv := pairs.filterMap Prod.snd
    Val.tenc gm (meanQ yv) pairs.length)

/-- One-hot expansion (`OneHotEncoder(sparse_output=False)`): one 0/1
column per observed category, named `<column>__<category>`, categories
in ascending order. -/
def onehotCols (n : String) (imputed : List Val) : List (String × Column) :=
  (sortVals imputed.dedup).map (fun cat =>
    (n ++ "__" ++ valShow cat,
     Column.mk DType.tnum (imputed.map (fun v => Val.num (if v = cat then 1 else 0)))))

/-- `SimpleImputer` numeric fill: replace each missing coerced cell by
the fitted statistic. -/
def fillMissing (fv : ℚ) (coerced : List (Option ℚ)) : List ℚ :=
  coerced.map (fun o => o.getD fv)

/-- `MinMaxScaler().fit_transform` on one feature: map onto `[0, 1]`;
scikit-learn replaces a zero range by 1 so constant features map to 0. -/
def minmaxTransform (xs : List ℚ) : List Val :=
  match xs with
  | [] => []
  | h :: t =>
    let lo := t.foldl min h
    let hi := t.foldl max h
    let range := hi - lo
    let d := if range = 0 then 1 else range
    xs.map (fun x => Val.num ((x - lo) / d))

/-- `StandardScaler().fit_transform` on one feature: subtract the mean
and divide by the population standard deviation; a zero variance makes
the scale 1 (so the output is `x - mu`, exactly 0 everywhere); otherwise
the output `(x - mu) / sqrt m2` is irrational in general and kept
symbolic in `Val.sstd`. -/
def standardTransform (xs : List ℚ) : List Val :=
  let nq : ℚ := (xs.length : ℚ)
  let mu := xs.sum / nq
  let m2 := (xs.map (fun x => (x - mu) ^ 2)).sum / nq
  if m2 = 0 then xs.map (fun x => Val.num (x - mu))
  else xs.map (fun x => Val.sstd x mu m2)

/-- `numeric_scaler.get(scaler_key, StandardScaler())` followed by
`fit_transform`: `minmax` selects the min-max scaler, anything else the
standard scaler. -/
def applyScaler (key : String) (xs : List ℚ) : List Val :=
  if key = "minmax" then minmaxTransform xs else standardTransform xs

/-- Pipeline configuration and per-run mutable attributes of
`AutoPreprocessor.__init__` (the `llm_model` hint only reaches the
remote advisor and is dropped here). -/
structure PreState where
  target_column : Option String := none
  low_card_threshold : ℕ := 10
  high_missing_threshold : ℚ := 3 / 10
  apply_outlier_treatment : Bool := true
  scaling_enabled : Bool := true
  scaling_method : Option String := none
deriving DecidableEq, Repr

/-- The numeric branch of `fit_transform` (pipeline.py lines 133-163):
coerce, impute per the Decision (`median`/`mean`/`knn`, default median;
a single-feature `KNNImputer` leaves a missing row with no observed
coordinate, so scikit-learn falls back to the column mean), cap with a
freshly fitted IQR capper when outlier treatment is on, then scale with
the configured or skewness-chosen scaler when scaling is on. -/
def processNumeric (st : PreState) (dec : Decision) (c : Column) : List Val :=
  let coerced := c.vals.map toNumQ?
  let valid := coerced.filterMap id
  let fv : ℚ :=
    match dec.imputation with
    | "median" => medianQ valid
    | "mean" => meanQ valid
    | "knn" => meanQ valid
    | _ => medianQ valid
  let imputed := fillMissing fv coerced
  let capped :=
    if st.apply_outlier_treatment then
      let p := iqrFitQ imputed
      imputed.map (clip1 p)
    else imputed
  if st.scaling_enabled then
    let key := (st.scaling_method).getD (chooseScalingMethod c.vals)
    applyScaler key capped
  else capped.map Val.num

/-- The encoding actually used for a categorical column (pipeline.py
line 168): the Decision's encoding when truthy (Python `or`: `None` and
the empty string fall through), else one-hot when the column's current
distinct count is at most the configured low-cardinality threshold,
else frequency. -/
def effEncoding (dec : Decision) (nuniq lowCard : ℕ) : String :=
  let fallback := if nuniq ≤ lowCard then "onehot" else "frequency"
  match dec.encoding with
  | some e => if e = "" then fallback else e
  | none => fallback

/-- The categorical branch of `fit_transform` (pipeline.py lines
165-183): most-frequent imputation, then one-hot, frequency, or target
encoding per `effEncoding`, where target encoding requires a numeric
target column and otherwise falls back to frequency. -/
def catCols (st : PreState) (y : Option Column) (n : String) (c : Column)
    (dec : Decision) : List (String × Column) :=
  let imputed := imputeMostFrequent c.vals
  let enc := effEncoding dec (nuniqueDropna c.vals) st.low_card_threshold
  if enc = "onehot" then onehotCols n imputed
  else if enc = "frequency" then [(n, Column.mk DType.tnum (freqEncode imputed))]
  else if enc = "target" then
    match y with
    | some ycol =>
      if ycol.dtype = DType.tnum then
        [(n, Column.mk DType.tnum (targetEncode imputed (ycol.vals.map toNumQ?)))]
      else [(n, Column.mk DType.tnum (freqEncode imputed))]
    | none => [(n, Column.mk DType.tnum (freqEncode imputed))]
  else [(n, Column.mk DType.tnum (freqEncode imputed))]

/-- A parsed timestamp: proleptic Gregorian calendar date (year ≥ 1)
with an hour-of-day component (0 when the source value carried no time,
matching `Series.dt.hour` on date-only data). -/
structure DTv where
  y : ℕ
  m : ℕ
  d : ℕ
  hour : ℕ
deriving DecidableEq, Repr

/-- `pd.to_datetime(_, errors='coerce')` on one cell: already-parsed
dates pass through, strings go through the ISO parser, everything else
becomes NaT.  (pandas would read a bare number as an epoch offset;
numeric cells inside a datetime-typed column are outside the modelled
inputs.) -/
def toDT? : Val → Option DTv
  | Val.date y m d h => some ⟨y, m, d, h⟩
  | Val.str s => (parseISODate? s).map (fun q => ⟨q.1, q.2.1, q.2.2.1, q.2.2.2⟩)
  | _ => none

/-- Day of week with the pandas convention 0 = Monday .. 6 = Sunday,
via Zeller's congruence on the Gregorian calendar. -/
def dayOfWeekDT (t : DTv) : ℕ :=
  let mz := if t.m ≤ 2 then t.m + 12 else t.m
  let yz := if t.m ≤ 2 then t.y - 1 else t.y
  let K := yz % 100
  let J := yz / 100
  let h := (t.d + 13 * (mz + 1) / 5 + K + K / 4 + J / 4 + 5 * J) % 7
  (h + 5) % 7

/-- Lexicographic comparison of timestamps (chronological order). -/
def dtLe (a b : DTv) : Bool :=
  if a.y ≠ b.y then a.y < b.y
  else if a.m ≠ b.m then a.m < b.m
  else if a.d ≠ b.d then a.d < b.d
  else a.hour ≤ b.hour

/-- Insertion into a chronologically sorted list of timestamps. -/
def insertSortedDT (x : DTv) : List DTv → List DTv
  | [] => [x]
  | y :: ys => if dtLe x y then x :: y :: ys else y :: insertSortedDT x ys

/-- `Series.mode().iloc[0]` over timestamps: the most frequent value,
ties broken toward the earliest (pandas returns modes sorted
ascending).  The empty case models `pd.Timestamp.now()` by the epoch
date; it is unreachable from the pipeline, which drops all-missing
columns as constant, and the wall clock is not modelled further. -/
def modeDT (vs : List DTv) : DTv :=
  match vs with
  | [] => ⟨1970, 1, 1, 0⟩
  | _ :: _ =>
    match (vs.dedup).foldr insertSortedDT [] with
    | [] => ⟨1970, 1, 1, 0⟩
    | c :: cs => cs.foldl (fun best x => if vs.count x > vs.count best then x else best) c

/-- `fillna` on the parsed timestamps: missing entries become the modal
timestamp.  When nothing is missing the fill value is never consulted,
matching the `isna().any()` guard of the source. -/
def fillDates (parsed : List (Option DTv)) : List DTv :=
  let fv := modeDT (parsed.filterMap id)
  parsed.map (fun o => o.getD fv)

/-- `categorize_hour` (pipeline.py): morning [6, 12), afternoon
[12, 18), evening otherwise (18-24 and 0-6). -/
def partDayCat (h : ℕ) : String :=
  if 6 ≤ h ∧ h < 12 then "morning"
  else if 12 ≤ h ∧ h < 18 then "afternoon"
  else "evening"

/-- The datetime branch of `fit_transform` (pipeline.py lines 185-250),
reached only for the first datetime column: parse, impute with the
modal timestamp, derive year / month / day / day-of-week / is-weekend,
scale the first four (scaler chosen from the year feature's skewness
unless configured) while is-weekend is never scaled, and append the
three-way day-part one-hot whenever the column is nonempty (after the
fill every row has an hour, 0 for date-only data, so the source's
`hour.notna().any()` guard is simply nonemptiness). -/
def processDatetimeBlock (st : PreState) (vals : List Val) : List (String × Column) :=
  let dts := fillDates (vals.map toDT?)
  let yearQ : List ℚ := dts.map (fun t => (t.y : ℚ))
  let monthQ : List ℚ := dts.map (fun t => (t.m : ℚ))
  let dayQ : List ℚ := dts.map (fun t => (t.d : ℚ))
  let dowQ : List ℚ := dts.map (fun t => (dayOfWeekDT t : ℚ))
  let scale : List ℚ → List Val :=
    if st.scaling_enabled then
      applyScaler ((st.scaling_method).getD (chooseScalingCore yearQ))
    else fun xs => xs.map Val.num
  let base :=
    [("year", Column.mk DType.tnum (scale yearQ)),
     ("month", Column.mk DType.tnum (scale monthQ)),
     ("day", Column.mk DType.tnum (scale dayQ)),
     ("day_of_week", Column.mk DType.tnum (scale dowQ)),
     ("is_weekend", Column.mk DType.tnum
       (dts.map (fun t => Val.num (if 5 ≤ dayOfWeekDT t then 1 else 0))))]
  let part :=
    if dts.isEmpty then []
    else
      [("part_day_morning", Column.mk DType.tnum
         (dts.map (fun t => Val.num (if partDayCat t.hour = "morning" then 1 else 0)))),
       ("part_day_afternoon", Column.mk DType.tnum
         (dts.map (fun t => Val.num (if partDayCat t.hour = "afternoon" then 1 else 0)))),
       ("part_day_evening", Column.mk DType.tnum
         (dts.map (fun t => Val.num (if partDayCat t.hour = "evening" then 1 else 0))))]
  base ++ part

/-- The `'global'` block of the decisions log. -/
structure GlobalCfg where
  low_card_threshold : ℕ
  high_missing_threshold : ℚ
  outliers : Bool
  scaling : Bool
  scaling_method : String
deriving DecidableEq, Repr

/-- The decisions log assembled during one run: global config snapshot,
dropped column names, and one Decision per processed feature. -/
structure DecLog where
  globalCfg : GlobalCfg
  drops : List String
  features : List (String × Decision)
deriving DecidableEq, Repr

/-- A before/after statistics bundle. -/
structure Stats where
  dataset : DsStats
  columns : List StatEntry
deriving DecidableEq, Repr

/-- `PreprocessResult`: processed table, decisions, before and after
statistics. -/
structure PreResult where
  processed : Table
  decisions : DecLog
  before : Stats
  after : Stats
deriving DecidableEq, Repr

/-- One call of `fit_transform`, with the state after the call and the
caller's table after the call made explicit (Python mutates `self`; the
input frame is only ever read from the copy). -/
structure PipeOut where
  result : PreResult
  selfAfter : PreState
  callerDf : Table
deriving DecidableEq, Repr

/-- Names of a table's columns, in order. -/
def colNames (t : Table) : List String := t.cols.map Prod.fst

/-- `df[name]`: the column of that name, when present. -/
def lookupCol (t : Table) (n : String) : Option Column :=
  (t.cols.find? (fun p => p.1 = n)).map Prod.snd

/-- Step 1 of `fit_transform` (pipeline.py lines 66-67): a truthy target
name absent from the table is overwritten with `None` on `self`.  The
empty string is falsy in Python and is left untouched. -/
def validateTarget (st : PreState) (df : Table) : PreState :=
  match st.target_column with
  | some c => if c ≠ "" ∧ c ∉ colNames df then { st with target_column := none } else st
  | none => st

/-- The drop rules (pipeline.py lines 77-89): identifier type, constant
column (at most one distinct non-missing value), or missing rate above
the configured threshold.  `types[col]` equals `inferType` of the
column, the table being unchanged between the two reads. -/
def dropPred (st : PreState) (n : String) (c : Column) : Bool :=
  inferType n c = "id" || nuniqueDropna c.vals ≤ 1 ||
    decide (missingRate c.vals > st.high_missing_threshold)

/-- Accumulator of the per-column loop: output columns so far, whether
datetime features were already created, and the feature decisions. -/
structure StepAcc where
  outCols : List (String × Column)
  dtDone : Bool
  feats : List (String × Decision)
deriving Repr

/-- One iteration of the per-column loop of `fit_transform` (pipeline.py
lines 121-254): skip the target; fetch the column's pre-drop stats
entry (an absent entry reads as an empty dict) and take the advisor
decision — the runs modelled here have no remote service configured, so
`advise` reduces to `_heuristic_decision` (see `advise_not_configured`);
record the decision; drop the column when the decision says so; else
dispatch on the inferred type, datetime features being produced only
once. -/
def stepCol (st : PreState) (tgt : Option String) (beforeCols : List StatEntry)
    (y : Option Column) (acc : StepAcc) (p : String × Column) : StepAcc :=
  if tgt = some p.1 then acc
  else
    let t := inferType p.1 p.2
    let entry := ((beforeCols.find? (fun e => e.name = p.1)).getD
      { name := "", type := "", missing_rate := 0, cardinality := 0 })
    let dec := heuristicDecision entry
    let feats := acc.feats ++ [(p.1, dec)]
    if dec.imputation = "drop" then { acc with feats := feats }
    else if t = "numeric" then
      { acc with outCols := acc.outCols ++ [(p.1, Column.mk DType.tnum (processNumeric st dec p.2))],
                 feats := feats }
    else if t = "categorical" then
      { acc with outCols := acc.outCols ++ catCols st y p.1 p.2 dec, feats := feats }
    else if t = "datetime" then
      if acc.dtDone then { acc with feats := feats }
      else { acc with outCols := acc.outCols ++ processDatetimeBlock st p.2.vals,
                      dtDone := true, feats := feats }
    else { acc with outCols := acc.outCols ++ [(p.1, p.2)], feats := feats }

/-- `AutoPreprocessor.fit_transform`.  The body starts from a copy of
the caller's table (`df = df.copy()`), so the caller's object is handed
back unchanged in `callerDf`.  The one uncaught exception of the body
is modelled by `none`: `df[self.target_column]` raises `KeyError` when
the validated target was removed by the drop pass. -/
def fitTransform (st : PreState) (df0 : Table) : Option PipeOut :=
  let df := df0
  let st1 := validateTarget st df
  let types := inferTypes df
  let before : Stats := ⟨datasetWideStats df types, columnStats df types⟩
  let drops := (df.cols.filter (fun p => dropPred st1 p.1 p.2)).map Prod.fst
  let df2 : Table := ⟨df.idx, df.cols.filter (fun p => !dropPred st1 p.1 p.2)⟩
  let glob : GlobalCfg :=
    ⟨st1.low_card_threshold, st1.high_missing_threshold, st1.apply_outlier_treatment,
     st1.scaling_enabled, (st1.scaling_method).getD "auto-detect"⟩
  let y? : Option (Option Column) :=
    match st1.target_column with
    | some c =>
      if c = "" then some none
      else
        match lookupCol df2 c with
        | some col => some (some col)
        | none => none
    | none => some none
  match y? with
  | none => none
  | some y =>
    let accF := df2.cols.foldl (stepCol st1 st1.target_column before.columns y)
      ⟨[], false, []⟩
    let processed : Table := ⟨df2.idx, accF.outCols⟩
    let afterTypes := inferTypes processed
    let after : Stats := ⟨datasetWideStats processed afterTypes, columnStats processed afterTypes⟩
    some ⟨⟨processed, ⟨glob, drops, accF.feats⟩, before, after⟩, st1, df0⟩

/-- A table whose columns all have as many cells as the index has rows
(every DataFrame satisfies this by construction). -/
def wellFormedT (t : Table) : Prop :=
  ∀ p ∈ t.cols, p.2.vals.length = t.idx.length

instance (t : Table) : Decidable (wellFormedT t) := by
  unfold wellFormedT
  infer_instance

/-- A numeric stats entry whose skewness is 0.7 (signed square 49/100):
between the spec sentence's 0.5 threshold and the code's 1.0 threshold. -/
def entrySkew07 : StatEntry :=
  { name := "f", type := "numeric", missing_rate := 0, cardinality := 12,
    skew := NumF.val (49 / 100) }

/-- A categorical stats entry with 15 distinct values. -/
def entryCard15 : StatEntry :=
  { name := "c", type := "categorical", missing_rate := 0, cardinality := 15 }

/-- A numeric column with exactly one non-missing value. -/
def oneValidCol : Column := ⟨DType.tnum, [Val.num 5, Val.nan, Val.nan]⟩

/-- The fit data of the OutlierCapper property: `[1, 2, 3, 4, 5, 100]`. -/
def capDemo : List ℚ := [1, 2, 3, 4, 5, 100]

/-- Ten rows, nine distinct values and one missing cell: uniqueness
sits exactly at the 0.9 boundary (9 is not greater than 0.9 * 10), the
skewness of `[1..8, 12]` lies between 0.5 (scipy, biased) and 1.0
(pandas, adjusted), so the heuristic imputes with the mean 16/3 — a
tenth distinct value — and the pipeline min-max-scales, after which the
recomputed uniqueness ratio exceeds 0.9. -/
def dfUnique : Table :=
  ⟨[0, 1, 2, 3, 4, 5, 6, 7, 8, 9],
   [("x", ⟨DType.tnum,
     [Val.num 1, Val.num 2, Val.num 3, Val.num 4, Val.num 5,
      Val.num 6, Val.num 7, Val.num 8, Val.num 12, Val.nan]⟩)]⟩

/-- Seven consecutive days, Monday 2024-01-01 through Sunday 2024-01-07. -/
def weekVals : List Val :=
  [Val.date 2024 1 1 0, Val.date 2024 1 2 0, Val.date 2024 1 3 0,
   Val.date 2024 1 4 0, Val.date 2024 1 5 0, Val.date 2024 1 6 0,
   Val.date 2024 1 7 0]

/-- A two-row, one-column table. -/
def dfSmall : Table := ⟨[0, 1], [("a", ⟨DType.tnum, [Val.num 1, Val.num 2]⟩)]⟩

/-- A state configured with target column `y`. -/
def stY : PreState := { target_column := some "y" }

/-- A table without a `y` column. -/
def tNoY : Table := ⟨[0], [("a", ⟨DType.tnum, [Val.num 1]⟩)]⟩

/-- A table with a `y` column. -/
def tWithY : Table := ⟨[0], [("y", ⟨DType.tnum, [Val.num 1]⟩)]⟩

/-- With no remote service configured, `advise` is exactly the
heuristic, which is why the pipeline embedding takes its decisions from
`heuristicDecision` directly. -/
theorem advise_not_configured (f : StatEntry) :
    advise f RemoteOutcome.notConfigured = (heuristicDecision f).toKVs := rfl

/-- Association lookup distributes over append: the left list wins when
it knows the key. -/
theorem alookup_append {α : Type} (l1 l2 : List (String × α)) (n : String) :
    alookup (l1 ++ l2) n =
      match alookup l1 n with
      | some v => some v
      | none => alookup l2 n := by
  induction l1 with
  | nil => simp [alookup]
  | cons hd tl ih =>
    by_cases hp : hd.1 = n
    · simp [alookup, List.find?, hp]
    · simp only [alookup, List.cons_append, List.find?] at ih ⊢
      simp only [hp, decide_eq_false, Bool.false_eq_true] at ih ⊢
      exact ih

/-- `setdefault` makes the key present, with the old value when there
was one and the default otherwise. -/
theorem alookup_setdefault_same (kvs : List (String × JVal)) (k : String) (v : JVal) :
    alookup (setdefault kvs k v) k = some ((alookup kvs k).getD v) := by
  unfold setdefault
  split
  · next hs => obtain ⟨w, hw⟩ := Option.isSome_iff_exists.1 hs; simp [hw]
  · next hs =>
    have hn : alookup kvs k = none := Option.not_isSome_iff_eq_none.1 hs
    rw [alookup_append, hn]
    simp [alookup, List.find?, hn]

/-- `setdefault` of a different key does not disturb a lookup. -/
theorem alookup_setdefault_ne (kvs : List (String × JVal)) (k k' : String) (v : JVal)
    (hne : k ≠ k') : alookup (setdefault kvs k' v) k = alookup kvs k := by
  unfold setdefault
  split
  · rfl
  · rw [alookup_append]
    cases hk : alookup kvs k with
    | some w => rfl
    | none => simp [alookup, List.find?, Ne.symm hne]

/-- Inversion of a successful `fit_transform` call: how each returned
component is built from the input. -/
theorem fitTransform_inv (st : PreState) (df : Table) (out : PipeOut)
    (h : fitTransform st df = some out) :
    out.callerDf = df ∧
    out.selfAfter = validateTarget st df ∧
    out.result.decisions.drops =
      (df.cols.filter (fun p => dropPred (validateTarget st df) p.1 p.2)).map Prod.fst ∧
    out.result.processed.idx = df.idx ∧
    ∃ y, out.result.processed.cols =
      ((df.cols.filter (fun p => !dropPred (validateTarget st df) p.1 p.2)).foldl
        (stepCol (validateTarget st df) (validateTarget st df).target_column
          (columnStats df (inferTypes df)) y) ⟨[], false, []⟩).outCols := by
  simp only [fitTransform] at h
  split at h
  · exact absurd h (by simp)
  · next y heq =>
    rw [Option.some.injEq] at h
    subst h
    exact ⟨rfl, rfl, rfl, rfl, y, rfl⟩

/-- `fillMissing` preserves length. -/
theorem length_fillMissing (fv : ℚ) (coerced : List (Option ℚ)) :
    (fillMissing fv coerced).length = coerced.length := by
  simp [fillMissing]

/-- `minmaxTransform` preserves length. -/
theorem length_minmaxTransform (xs : List ℚ) :
    (minmaxTransform xs).length = xs.length := by
  cases xs with
  | nil => rfl
  | cons h t => simp [minmaxTransform]

/-- `standardTransform` preserves length. -/
theorem length_standardTransform (xs : List ℚ) :
    (standardTransform xs).length = xs.length := by
  simp only [standardTransform]
  split <;> simp

/-- `applyScaler` preserves length. -/
theorem length_applyScaler (k : String) (xs : List ℚ) :
    (applyScaler k xs).length = xs.length := by
  unfold applyScaler
  split
  · exact length_minmaxTransform xs
  · exact length_standardTransform xs

/-- The numeric branch keeps one output cell per input cell. -/
theorem length_processNumeric (st : PreState) (dec : Decision) (c : Column) :
    (processNumeric st dec c).length = c.vals.length := by
  simp only [processNumeric]
  split
  · rw [length_applyScaler]
    split <;> simp [length_fillMissing]
  · split <;> simp [length_fillMissing]

/-- `imputeMostFrequent` preserves length. -/
theorem length_imputeMostFrequent (vs : List Val) :
    (imputeMostFrequent vs).length = vs.length := by
  simp [imputeMostFrequent]

/-- Every column the categorical branch emits has one cell per input
cell. -/
theorem mem_catCols_length (st : PreState) (y : Option Column) (n : String)
    (c : Column) (dec : Decision) (p : String × Column)
    (hp : p ∈ catCols st y n c dec) : p.2.vals.length = c.vals.length := by
  simp only [catCols] at hp
  split at hp
  · simp only [onehotCols, List.mem_map] at hp
    obtain ⟨cat, _, rfl⟩ := hp
    simp [length_imputeMostFrequent]
  · split at hp
    · simp only [List.mem_singleton] at hp
      subst hp
      simp [freqEncode, length_imputeMostFrequent]
    · split at hp
      · split at hp
        · split at hp
          · simp only [List.mem_singleton] at hp
            subst hp
            simp [targetEncode, length_imputeMostFrequent]
          · simp only [List.mem_singleton] at hp
            subst hp
            simp [freqEncode, length_imputeMostFrequent]
        · simp only [List.mem_singleton] at hp
          subst hp
          simp [freqEncode, length_imputeMostFrequent]
      · simp only [List.mem_singleton] at hp
        subst hp
        simp [freqEncode, length_imputeMostFrequent]

/-- `fillDates` preserves length. -/
theorem length_fillDates (parsed : List (Option DTv)) :
    (fillDates parsed).length = parsed.length := by
  simp [fillDates]

/-- Every column the datetime branch emits has one cell per input cell. -/
theorem mem_processDatetimeBlock_length (st : PreState) (vals : List Val)
    (p : String × Column) (hp : p ∈ processDatetimeBlock st vals) :
    p.2.vals.length = vals.length := by
  have hdts : (fillDates (vals.map toDT?)).length = vals.length := by
    simp [length_fillDates]
  simp only [processDatetimeBlock, List.mem_append] at hp
  rcases hp with hp | hp
  · simp only [List.mem_cons, List.mem_singleton] at hp
    rcases hp with rfl | rfl | rfl | rfl | rfl | h
    · split <;> simp [length_applyScaler, hdts]
    · split <;> simp [length_applyScaler, hdts]
    · split <;> simp [length_applyScaler, hdts]
    · split <;> simp [length_applyScaler, hdts]
    · simp [hdts]
    · cases h
  · split at hp
    · cases hp
    · simp only [List.mem_cons, List.mem_singleton] at hp
      rcases hp with rfl | rfl | rfl | h
      · simp [hdts]
      · simp [hdts]
      · simp [hdts]
      · cases h

/-- One loop step keeps the invariant that every output column so far
has `nrows` cells, provided the incoming column has `nrows` cells. -/
theorem stepCol_outCols_length (st : PreState) (tgt : Option String)
    (beforeCols : List StatEntry) (y : Option Column) (nrows : ℕ)
    (acc : StepAcc) (p : String × Column)
    (hacc : ∀ q ∈ acc.outCols, q.2.vals.length = nrows)
    (hp : p.2.vals.length = nrows) :
    ∀ q ∈ (stepCol st tgt beforeCols y acc p).outCols, q.2.vals.length = nrows := by
  simp only [stepCol]
  split
  · exact hacc
  · split
    · exact hacc
    · split
      · intro q hq
        simp only [List.mem_append, List.mem_singleton] at hq
        rcases hq with hq | rfl
        · exact hacc q hq
        · simpa [length_processNumeric] using hp
      · split
        · intro q hq
          simp only [List.mem_append] at hq
          rcases hq with hq | hq
          · exact hacc q hq
          · rw [mem_catCols_length st y p.1 p.2 _ q hq]
            exact hp
        · split
          · split
            · exact hacc
            · intro q hq
              simp only [List.mem_append] at hq
              rcases hq with hq | hq
              · exact hacc q hq
              · rw [mem_processDatetimeBlock_length st p.2.vals q hq]
                exact hp
          · intro q hq
            simp only [List.mem_append, List.mem_singleton] at hq
            rcases hq with hq | rfl
            · exact hacc q hq
            · exact hp

/-- The per-column loop keeps every produced column at `nrows` cells. -/
theorem foldl_stepCol_length (st : PreState) (tgt : Option String)
    (beforeCols : List StatEntry) (y : Option Column) (nrows : ℕ)
    (l : List (String × Column)) :
    ∀ (acc : StepAcc),
      (∀ q ∈ acc.outCols, q.2.vals.length = nrows) →
      (∀ p ∈ l, p.2.vals.length = nrows) →
      ∀ q ∈ (l.foldl (stepCol st tgt beforeCols y) acc).outCols,
        q.2.vals.length = nrows := by
  induction l with
  | nil =>
    intro acc hacc _
    simpa using hacc
  | cons hd tl ih =>
    intro acc hacc hl
    simp only [List.foldl_cons]
    exact ih _
      (stepCol_outCols_length st tgt beforeCols y nrows acc hd hacc
        (hl hd (List.mem_cons_self hd tl)))
      (fun p hp => hl p (List.mem_cons_of_mem _ hp))

/-- C1, as stated, is false: the spec sentence puts the heuristic's
scaling threshold at 0.5, but `_heuristic_decision` compares
`abs(skew) < 1.0`.  At skewness 0.7 (signed square 49/100) the claim
demands `minmax` while the code returns `standard`. -/
theorem claim1_counterexample :
    ¬ (heuristicDecision entrySkew07).scaling =
        some (if skewAbsLt entrySkew07.skew (1 / 2) then "standard" else "minmax") := by
  with_unfolding_all decide

/-- C1 (amended): for a numeric stats entry whose skewness is the value
`s` (carried as its signed square), the heuristic's informational
`scaling` field is `standard` exactly when the absolute skewness is
below 1.0, and `minmax` otherwise — the threshold is 1.0, not 0.5. -/
theorem claim1_scaling_threshold_one (f : StatEntry) (hty : f.type = "numeric")
    (s : ℚ) (hs : f.skew = NumF.val s) :
    ((heuristicDecision f).scaling = some "standard" ↔ |s| < 1) ∧
    ((heuristicDecision f).scaling = some "minmax" ↔ ¬ |s| < 1) := by
  by_cases h : |s| < 1 <;>
    simp +decide [heuristicDecision, hty, hs, skewAbsLt, h, one_pow]

/-- Witness for C1's amended theorem at the concrete entry of skewness
0.7. -/
theorem claim1_witness :
    entrySkew07.type = "numeric" ∧ entrySkew07.skew = NumF.val (49 / 100) ∧
    ((heuristicDecision entrySkew07).scaling = some "standard" ↔ |(49 : ℚ) / 100| < 1) :=
  ⟨rfl, rfl, (claim1_scaling_threshold_one entrySkew07 rfl (49 / 100) rfl).1⟩

/-- C3, as stated, is false: on a numeric column with exactly one valid
value, `Series.skew` (which needs 3 observations) yields NaN, and
`column_stats` reports that NaN, not 0 — the `else 0.0` of the source
only covers the no-valid-values case. -/
theorem claim3_counterexample :
    (columnStats ⟨[0, 1, 2], [("v", oneValidCol)]⟩ [("v", "numeric")]).map
        (fun e => e.skew) = [NumF.nan] ∧
      NumF.nan ≠ NumF.val 0 := by
  with_unfolding_all decide

/-- C3 (amended): a numeric column reports skew = 0 when it has zero
valid values after coercion, but NaN — not 0 — when it has exactly one
valid value. -/
theorem claim3_skew_zero_or_nan (n : String) (c : Column) :
    ((c.vals.filterMap toNumQ?).length = 0 →
      (statEntryFor "numeric" n c).skew = NumF.val 0) ∧
    ((c.vals.filterMap toNumQ?).length = 1 →
      (statEntryFor "numeric" n c).skew = NumF.nan) := by
  constructor
  · intro h
    have he : (c.vals.filterMap toNumQ?).isEmpty := by
      rw [List.isEmpty_iff_length_eq_zero]
      exact h
    simp [statEntryFor, he]
  · intro h
    have he : ¬ (c.vals.filterMap toNumQ?).isEmpty := by
      rw [List.isEmpty_iff_length_eq_zero, h]
      decide
    simp only [statEntryFor, if_pos rfl, he, if_false, ite_false]
    simp [pandasSkewRep, h]

/-- Witness for C3's amended theorem at the one-valid-value column. -/
theorem claim3_witness :
    (oneValidCol.vals.filterMap toNumQ?).length = 1 ∧
    (statEntryFor "numeric" "v" oneValidCol).skew = NumF.nan :=
  ⟨by with_unfolding_all decide, (claim3_skew_zero_or_nan "v" oneValidCol).2 (by with_unfolding_all decide)⟩

/-- C4: for every stats entry and every remote outcome — not configured,
network/timeout/HTTP/JSON failure, a response with no JSON object, or a
parsed object — `advise` returns a decision dict in which all four
fields are present; and on a parsed object each field is the remote
value when present, else the documented default (`leave` for
imputation, null for encoding and scaling, the empty string for
reason).  Totality of the Lean function mirrors the `try/except`
boundary: no outcome raises. -/
theorem claim4_advise_always_populated :
    (∀ (f : StatEntry) (o : RemoteOutcome),
      (alookup (advise f o) "imputation").isSome ∧
      (alookup (advise f o) "encoding").isSome ∧
      (alookup (advise f o) "scaling").isSome ∧
      (alookup (advise f o) "reason").isSome) ∧
    (∀ (f : StatEntry) (kvs : List (String × JVal)),
      alookup (advise f (RemoteOutcome.content (some kvs))) "imputation" =
        some ((alookup kvs "imputation").getD (JVal.jstr "leave")) ∧
      alookup (advise f (RemoteOutcome.content (some kvs))) "encoding" =
        some ((alookup kvs "encoding").getD JVal.jnull) ∧
      alookup (advise f (RemoteOutcome.content (some kvs))) "scaling" =
        some ((alookup kvs "scaling").getD JVal.jnull) ∧
      alookup (advise f (RemoteOutcome.content (some kvs))) "reason" =
        some ((alookup kvs "reason").getD (JVal.jstr ""))) := by
  have hpop : ∀ (f : StatEntry) (kvs : List (String × JVal)),
      alookup (advise f (RemoteOutcome.content (some kvs))) "imputation" =
        some ((alookup kvs "imputation").getD (JVal.jstr "leave")) ∧
      alookup (advise f (RemoteOutcome.content (some kvs))) "encoding" =
        some ((alookup kvs "encoding").getD JVal.jnull) ∧
      alookup (advise f (RemoteOutcome.content (some kvs))) "scaling" =
        some ((alookup kvs "scaling").getD JVal.jnull) ∧
      alookup (advise f (RemoteOutcome.content (some kvs))) "reason" =
        some ((alookup kvs "reason").getD (JVal.jstr "")) := by
    intro f kvs
    refine ⟨?_, ?_, ?_, ?_⟩
    · show alookup (setdefault _ "reason" _) "imputation" = _
      rw [alookup_setdefault_ne _ _ _ _ (by decide),
        alookup_setdefault_ne _ _ _ _ (by decide),
        alookup_setdefault_ne _ _ _ _ (by decide),
        alookup_setdefault_same]
    · show alookup (setdefault _ "reason" _) "encoding" = _
      rw [alookup_setdefault_ne _ _ _ _ (by decide),
        alookup_setdefault_ne _ _ _ _ (by decide),
        alookup_setdefault_same,
        alookup_setdefault_ne _ _ _ _ (by decide)]
    · show alookup (setdefault _ "reason" _) "scaling" = _
      rw [alookup_setdefault_ne _ _ _ _ (by decide),
        alookup_setdefault_same,
        alookup_setdefault_ne _ _ _ _ (by decide),
        alookup_setdefault_ne _ _ _ _ (by decide)]
    · show alookup (setdefault _ "reason" _) "reason" = _
      rw [alookup_setdefault_same,
        alookup_setdefault_ne _ _ _ _ (by decide),
        alookup_setdefault_ne _ _ _ _ (by decide),
        alookup_setdefault_ne _ _ _ _ (by decide)]
  refine ⟨?_, hpop⟩
  intro f o
  cases o with
  | notConfigured => simp +decide [advise, Decision.toKVs, alookup, List.find?]
  | failure => simp +decide [advise, Decision.toKVs, alookup, List.find?]
  | content p =>
    cases p with
    | none => simp +decide [advise, Decision.toKVs, alookup, List.find?]
    | some kvs =>
      obtain ⟨h1, h2, h3, h4⟩ := hpop f kvs
      exact ⟨by rw [h1]; rfl, by rw [h2]; rfl, by rw [h3]; rfl, by rw [h4]; rfl⟩

/-- C5: `OutlierCapper(iqr)` fitted on `[1, 2, 3, 4, 5, 100]` clips 100
down to `Q3 + 1.5 IQR` of those six values (interpolated quantiles:
Q1 = 9/4, Q3 = 19/4, bound 17/2) and is the identity strictly inside
the learned bounds. -/
theorem claim5_outlier_capper_iqr :
    clip1 (iqrFitQ capDemo) 100 =
      quantileQ capDemo (3 / 4) +
        3 / 2 * (quantileQ capDemo (3 / 4) - quantileQ capDemo (1 / 4)) ∧
    ∀ x : ℚ, (iqrFitQ capDemo).low < x → x < (iqrFitQ capDemo).high →
      clip1 (iqrFitQ capDemo) x = x := by
  constructor
  · with_unfolding_all decide
  · intro x h1 h2
    unfold clip1
    rw [min_eq_left (le_of_lt h2), max_eq_right (le_of_lt h1)]

/-- Witness for C5 at the interior point 3. -/
theorem claim5_witness :
    (iqrFitQ capDemo).low < 3 ∧ (3 : ℚ) < (iqrFitQ capDemo).high ∧
    clip1 (iqrFitQ capDemo) 3 = 3 :=
  ⟨by with_unfolding_all decide, by with_unfolding_all decide,
    claim5_outlier_capper_iqr.2 3 (by with_unfolding_all decide) (by with_unfolding_all decide)⟩

/-- C8: with no remote advisor, the categorical encoding is fixed by the
heuristic's cardinality-20 rule whatever `low_card_threshold` says: the
heuristic always emits a truthy encoding, so the `or`-fallback of
pipeline line 168 (which is where the configured threshold lives) never
fires. -/
theorem claim8_heuristic_threshold_not_config (f : StatEntry)
    (hty : f.type = "categorical") (nuniq lowCard : ℕ) :
    effEncoding (heuristicDecision f) nuniq lowCard =
      (if f.cardinality ≤ 20 then "onehot" else "frequency") := by
  by_cases h : f.cardinality ≤ 20 <;>
    simp +decide [heuristicDecision, hty, h, effEncoding]

/-- Witness for C8: 15 distinct values with the default threshold 10
still one-hot encodes. -/
theorem claim8_witness :
    entryCard15.type = "categorical" ∧
    effEncoding (heuristicDecision entryCard15) 15 10 = "onehot" :=
  ⟨rfl, (claim8_heuristic_threshold_not_config entryCard15 rfl 15 10).trans (by decide)⟩

set_option maxRecDepth 100000 in
/-- C2, as stated, is false: on `dfUnique` (default configuration) the
column `x` survives the drop pass (the drop list is empty), yet the
statistics recomputed on the assembled output classify `x` as an
identifier, because mean imputation added a tenth distinct value and
pushed the uniqueness ratio over 0.9. -/
theorem claim2_counterexample :
    (fitTransform {} dfUnique).map
      (fun o => ((o.result.after.columns.find? (fun e => e.name = "x")).map (fun e => e.type),
                 o.result.decisions.drops)) = some (some "id", []) := by
  with_unfolding_all decide

/-- C2 (amended): every column whose inferred (before) type is
identifier is recorded in the drop list — identifiers are always
dropped; the claim as stated fails only because the after-statistics
types are recomputed on transformed values and can newly classify a
surviving column as an identifier. -/
theorem claim2_identifiers_always_dropped (st : PreState) (df : Table) (out : PipeOut)
    (h : fitTransform st df = some out) (n : String) (c : Column)
    (hmem : (n, c) ∈ df.cols) (hid : inferType n c = "id") :
    n ∈ out.result.decisions.drops := by
  obtain ⟨-, -, hdrops, -, -⟩ := fitTransform_inv st df out h
  rw [hdrops]
  refine List.mem_map_of_mem Prod.fst (List.mem_filter.2 ⟨hmem, ?_⟩)
  simp [dropPred, hid]

/-- Witness for C2's amended theorem: the single all-unique column of
`tNoY` is inferred as an identifier and lands in the drop list. -/
theorem claim2_witness :
    inferType "a" (Column.mk DType.tnum [Val.num 1]) = "id" ∧
    "a" ∈ ((fitTransform {} tNoY).map (fun o => o.result.decisions.drops)).getD [] := by
  refine ⟨by with_unfolding_all decide, ?_⟩
  cases h : fitTransform {} tNoY with
  | none =>
    have hs : (fitTransform {} tNoY).isSome := by with_unfolding_all decide
    rw [h] at hs
    cases hs
  | some o =>
    simp only [Option.map_some', Option.getD_some]
    exact claim2_identifiers_always_dropped {} tNoY o h "a"
      (Column.mk DType.tnum [Val.num 1])
      (by with_unfolding_all decide) (by with_unfolding_all decide)

/-- C6: whatever the configuration (in particular with scaling enabled)
and whatever the first datetime column's values, provided its filled
timestamps span a full week including a Saturday, the emitted
`is_weekend` column is exactly the indicator of day-of-week ≥ 5
(0 = Monday) — it is built from the timestamps directly and never
passes through a scaler — and every one of its cells is 0 or 1. -/
theorem claim6_is_weekend_binary (st : PreState) (vals : List Val)
    (hweek : ∀ k, k < 7 → ∃ t ∈ fillDates (vals.map toDT?), dayOfWeekDT t = k) :
    alookup (processDatetimeBlock st vals) "is_weekend" =
      some (Column.mk DType.tnum ((fillDates (vals.map toDT?)).map
        (fun t => Val.num (if 5 ≤ dayOfWeekDT t then 1 else 0)))) ∧
    ∀ v ∈ (fillDates (vals.map toDT?)).map
        (fun t => Val.num (if 5 ≤ dayOfWeekDT t then 1 else 0)),
      v = Val.num 0 ∨ v = Val.num 1 := by
  constructor
  · simp only [processDatetimeBlock]
    rw [alookup_append]
    simp +decide [alookup, List.find?]
  · intro v hv
    simp only [List.mem_map] at hv
    obtain ⟨t, -, rfl⟩ := hv
    by_cases h5 : 5 ≤ dayOfWeekDT t
    · right
      simp [h5]
    · left
      simp [h5]

/-- Witness for C6 on the week 2024-01-01 (Monday) through 2024-01-07
(Sunday), default configuration (scaling enabled). -/
theorem claim6_witness :
    (∀ k, k < 7 → ∃ t ∈ fillDates (weekVals.map toDT?), dayOfWeekDT t = k) ∧
    alookup (processDatetimeBlock {} weekVals) "is_weekend" =
      some (Column.mk DType.tnum ((fillDates (weekVals.map toDT?)).map
        (fun t => Val.num (if 5 ≤ dayOfWeekDT t then 1 else 0)))) :=
  ⟨by decide, (claim6_is_weekend_binary {} weekVals (by decide)).1⟩

/-- C7: `fit_transform` never mutates the caller's table — the body
works on `df.copy()` and only rebinding happens afterwards, so the
caller's object after a successful call is the unchanged input. -/
theorem claim7_caller_table_unchanged (st : PreState) (df : Table) (out : PipeOut)
    (h : fitTransform st df = some out) : out.callerDf = df :=
  (fitTransform_inv st df out h).1

/-- Witness for C7 on a concrete two-row table. -/
theorem claim7_witness :
    (fitTransform {} dfSmall).map (fun o => o.callerDf) = some dfSmall := by
  cases h : fitTransform {} dfSmall with
  | none =>
    have hs : (fitTransform {} dfSmall).isSome := by with_unfolding_all decide
    rw [h] at hs
    cases hs
  | some o =>
    simp only [Option.map_some']
    exact congrArg some (claim7_caller_table_unchanged {} dfSmall o h)

/-- C9: calling `fit_transform` with a (truthy) target column that is
absent from the table permanently nulls `self.target_column`, so every
later call on the same instance — including on a table that does
contain that column — behaves exactly as a no-target run. -/
theorem claim9_target_downgrade_persists (st : PreState) (c : String) (t1 t2 : Table)
    (h1 : st.target_column = some c) (h2 : c ≠ "") (h3 : c ∉ colNames t1)
    (h4 : c ∈ colNames t2) (out : PipeOut) (h : fitTransform st t1 = some out) :
    out.selfAfter.target_column = none ∧
    fitTransform out.selfAfter t2 = fitTransform { st with target_column := none } t2 := by
  have hv : validateTarget st t1 = { st with target_column := none } := by
    unfold validateTarget
    rw [h1]
    simp [h2, h3]
  have hs := (fitTransform_inv st t1 out h).2.1
  rw [hv] at hs
  exact ⟨by rw [hs], by rw [hs]⟩

/-- Witness for C9: target `y`, first table without `y`, second with it. -/
theorem claim9_witness :
    stY.target_column = some "y" ∧ "y" ∉ colNames tNoY ∧ "y" ∈ colNames tWithY ∧
    (fitTransform stY tNoY).map (fun o => o.selfAfter.target_column) = some none := by
  refine ⟨rfl, by decide, by decide, ?_⟩
  cases h : fitTransform stY tNoY with
  | none =>
    have hs : (fitTransform stY tNoY).isSome := by with_unfolding_all decide
    rw [h] at hs
    cases hs
  | some o =>
    simp only [Option.map_some']
    exact congrArg some (claim9_target_downgrade_persists stY "y" tNoY tWithY rfl
      (by decide) (by decide) (by decide) o h).1

/-- C10: a successful run returns a processed table with exactly the
input's row index (hence row count), and every produced column has one
cell per row — all transformations are column-wise maps, none drops or
adds a row. -/
theorem claim10_row_count_and_index_preserved (st : PreState) (df : Table) (out : PipeOut)
    (hwf : wellFormedT df) (h : fitTransform st df = some out) :
    out.result.processed.idx = df.idx ∧ wellFormedT out.result.processed := by
  obtain ⟨-, -, -, hidx, y, hcols⟩ := fitTransform_inv st df out h
  refine ⟨hidx, ?_⟩
  intro p hp
  rw [hcols] at hp
  rw [hidx]
  refine foldl_stepCol_length _ _ _ _ df.idx.length _ _ (by simp) ?_ p hp
  intro q hq
  exact hwf q (List.mem_of_mem_filter hq)

/-- Witness for C10 on a concrete two-row table. -/
theorem claim10_witness :
    wellFormedT dfSmall ∧
    (fitTransform {} dfSmall).map (fun o => o.result.processed.idx) = some dfSmall.idx := by
  refine ⟨by decide, ?_⟩
  cases h : fitTransform {} dfSmall with
  | none =>
    have hs : (fitTransform {} dfSmall).isSome := by with_unfolding_all decide
    rw [h] at hs
    cases hs
  | some o =>
    simp only [Option.map_some']
    exact congrArg some (claim10_row_count_and_index_preserved {} dfSmall o (by decide) h).1

end AutoPrep
